import Mathlib

/-!
Verification of the tages_images_project file server: a shallow embedding of
the repository layer (`internal/repository/file`), the controller layer
(`internal/controller/file`), the gRPC handler (`internal/handler/grpc`) and
the concurrency-limiter middleware (`internal/middleware`), together with the
MD5 content hash (`crypto/md5`, RFC 1321) and hex encoding (`encoding/hex`)
that the repository uses to derive file identifiers.
-/

namespace TagesFS

/-! ## MD5 (crypto/md5, RFC 1321) over byte lists (each byte a Nat < 256) -/

/-- 32-bit left rotation on a Nat assumed < 2^32. -/
def rotl32 (x n : Nat) : Nat :=
  ((x <<< n) % 2 ^ 32) ||| (x >>> (32 - n))

/-- Little-endian 8-byte encoding of `n % 2^64` (message bit length field). -/
def le64 (n : Nat) : List Nat :=
  (List.range 8).map (fun i => (n >>> (8 * i)) % 256)

/-- Little-endian 4-byte encoding of a 32-bit word. -/
def le32 (n : Nat) : List Nat :=
  [n % 256, (n >>> 8) % 256, (n >>> 16) % 256, (n >>> 24) % 256]

/-- MD5 padding: append 0x80, zero bytes to 56 mod 64, then the 64-bit
little-endian bit length of the original message. -/
def padMsg (msg : List Nat) : List Nat :=
  let len := msg.length
  let z := (120 - ((len + 1) % 64)) % 64
  msg ++ [0x80] ++ List.replicate z 0 ++ le64 (len * 8)

/-- Fuel-driven worker for `chunks64`; every step consumes at least one
element, so `l.length` fuel always suffices. -/
def chunks64Go : Nat → List Nat → List (List Nat)
  | 0, _ => []
  | _ + 1, [] => []
  | fuel + 1, a :: rest => (a :: rest).take 64 :: chunks64Go fuel ((a :: rest).drop 64)

/-- Split a list into chunks of 64 bytes (the padded message length is a
multiple of 64). -/
def chunks64 (l : List Nat) : List (List Nat) :=
  chunks64Go l.length l

/-- The 64 MD5 sine-derived constants. -/
def md5K : List Nat :=
  [0xd76aa478, 0xe8c7b756, 0x242070db, 0xc1bdceee,
   0xf57c0faf, 0x4787c62a, 0xa8304613, 0xfd469501,
   0x698098d8, 0x8b44f7af, 0xffff5bb1, 0x895cd7be,
   0x6b901122, 0xfd987193, 0xa679438e, 0x49b40821,
   0xf61e2562, 0xc040b340, 0x265e5a51, 0xe9b6c7aa,
   0xd62f105d, 0x02441453, 0xd8a1e681, 0xe7d3fbc8,
   0x21e1cde6, 0xc33707d6, 0xf4d50d87, 0x455a14ed,
   0xa9e3e905, 0xfcefa3f8, 0x676f02d9, 0x8d2a4c8a,
   0xfffa3942, 0x8771f681, 0x6d9d6122, 0xfde5380c,
   0xa4beea44, 0x4bdecfa9, 0xf6bb4b60, 0xbebfbc70,
   0x289b7ec6, 0xeaa127fa, 0xd4ef3085, 0x04881d05,
   0xd9d4d039, 0xe6db99e5, 0x1fa27cf8, 0xc4ac5665,
   0xf4292244, 0x432aff97, 0xab9423a7, 0xfc93a039,
   0x655b59c3, 0x8f0ccc92, 0xffeff47d, 0x85845dd1,
   0x6fa87e4f, 0xfe2ce6e0, 0xa3014314, 0x4e0811a1,
   0xf7537e82, 0xbd3af235, 0x2ad7d2bb, 0xeb86d391]

/-- The 64 per-round shift amounts. -/
def md5S : List Nat :=
  [7, 12, 17, 22, 7, 12, 17, 22, 7, 12, 17, 22, 7, 12, 17, 22,
   5, 9, 14, 20, 5, 9, 14, 20, 5, 9, 14, 20, 5, 9, 14, 20,
   4, 11, 16, 23, 4, 11, 16, 23, 4, 11, 16, 23, 4, 11, 16, 23,
   6, 10, 15, 21, 6, 10, 15, 21, 6, 10, 15, 21, 6, 10, 15, 21]

/-- Little-endian 32-bit word `j` of a 64-byte chunk. -/
def wordAt (chunk : List Nat) (j : Nat) : Nat :=
  chunk.getD (4 * j) 0 + chunk.getD (4 * j + 1) 0 * 2 ^ 8 +
    chunk.getD (4 * j + 2) 0 * 2 ^ 16 + chunk.getD (4 * j + 3) 0 * 2 ^ 24

/-- One MD5 round `i` (0 ≤ i < 64) on the state (A, B, C, D). -/
def md5Round (M : Nat → Nat) (i : Nat) (st : Nat × Nat × Nat × Nat) :
    Nat × Nat × Nat × Nat :=
  let A := st.1
  let B := st.2.1
  let C := st.2.2.1
  let D := st.2.2.2
  let mask := 2 ^ 32 - 1
  let Fg : Nat × Nat :=
    if i < 16 then ((B &&& C) ||| ((B ^^^ mask) &&& D), i)
    else if i < 32 then ((D &&& B) ||| ((D ^^^ mask) &&& C), (5 * i + 1) % 16)
    else if i < 48 then (B ^^^ C ^^^ D, (3 * i + 5) % 16)
    else (C ^^^ (B ||| (D ^^^ mask)), (7 * i) % 16)
  let F2 := (Fg.1 + A + md5K.getD i 0 + M Fg.2) % 2 ^ 32
  (D, (B + rotl32 F2 (md5S.getD i 0)) % 2 ^ 32, B, C)

/-- Process one 64-byte chunk: 64 rounds, then add into the incoming state. -/
def md5ProcessChunk (chunk : List Nat) (st : Nat × Nat × Nat × Nat) :
    Nat × Nat × Nat × Nat :=
  let r := (List.range 64).foldl (fun s i => md5Round (wordAt chunk) i s) st
  ((st.1 + r.1) % 2 ^ 32, (st.2.1 + r.2.1) % 2 ^ 32,
   (st.2.2.1 + r.2.2.1) % 2 ^ 32, (st.2.2.2 + r.2.2.2) % 2 ^ 32)

/-- The 16-byte MD5 digest of a byte list. -/
def md5Bytes (msg : List Nat) : List Nat :=
  let st := (chunks64 (padMsg msg)).foldl (fun s c => md5ProcessChunk c s)
    (0x67452301, 0xefcdab89, 0x98badcfe, 0x10325476)
  le32 st.1 ++ le32 st.2.1 ++ le32 st.2.2.1 ++ le32 st.2.2.2

/-- The lowercase hex alphabet of Go's encoding/hex:
`const hextable = "0123456789abcdef"`. -/
def hexTable : List Char :=
  "0123456789abcdef".toList

/-- hex.EncodeToString: two lowercase hex digits per byte. -/
def hexEncode (bs : List Nat) : String :=
  String.mk (bs.foldr
    (fun b acc => hexTable.getD (b / 16) '0' :: hexTable.getD (b % 16) '0' :: acc) [])

/-- The file identifier derived by the repository:
`hex.EncodeToString(md5.Sum(data))`. -/
def md5Hex (data : List Nat) : String :=
  hexEncode (md5Bytes data)

/-! ## Data model (pkg/model/file.go) and repository state -/

/-- model.FileInfo: metadata record kept in the in-memory index. Times are
abstract instants (Nat). -/
structure FileInfo where
  id : String
  filename : String
  createdAt : Nat
  updatedAt : Nat
  size : Nat
deriving DecidableEq, Repr

/-- model.File: metadata plus content bytes. -/
structure File where
  info : FileInfo
  data : List Nat
deriving DecidableEq, Repr

/-- Outcome classes of a failed OS call, as distinguished by `os.IsNotExist`. -/
inductive IOErr where
  | notExist
  | other
deriving DecidableEq, Repr

/-- Go error values flowing through the server. The seven sentinels are the
`errors.New` values of internal/repository/error.go; `wrapped msg inner`
models `fmt.Errorf("msg: %w", inner)` (a fresh allocation, never `==` to a
sentinel); `ioErr` embeds an OS error. -/
inductive GoErr where
  | errFileNotFound
  | errInvalidFileID
  | errFileTooLarge
  | errInvalidFilename
  | errStorageUnavailable
  | errFileIsEmpty
  | errFailToDeleteFile
  | wrapped (msg : String) (inner : GoErr)
  | ioErr (e : IOErr)
deriving DecidableEq, Repr

/-- Decidable equality of operation outcomes (core provides none for
`Except`). -/
instance {ε α : Type} [DecidableEq ε] [DecidableEq α] : DecidableEq (Except ε α) :=
  fun a b =>
    match a, b with
    | .error x, .error y =>
      if h : x = y then .isTrue (by rw [h])
      else .isFalse (by intro hc; cases hc; exact h rfl)
    | .ok x, .ok y =>
      if h : x = y then .isTrue (by rw [h])
      else .isFalse (by intro hc; cases hc; exact h rfl)
    | .error _, .ok _ => .isFalse (by intro hc; cases hc)
    | .ok _, .error _ => .isFalse (by intro hc; cases hc)

/-- One object in the backing byte store. `readFails` / `removeFails` model a
present object whose read / removal fails with an error that is not
not-exist (permissions, I/O fault, ...). -/
structure DiskEntry where
  data : List Nat
  readFails : Bool
  removeFails : Bool
deriving DecidableEq, Repr

/-- Association-list lookup, mirroring a Go map read. -/
def lookupA {α : Type} (l : List (String × α)) (k : String) : Option α :=
  match l with
  | [] => none
  | (k', v) :: rest => if k' = k then some v else lookupA rest k

/-- Association-list insert, mirroring a Go map write: replace an existing
key in place, otherwise append. -/
def insertA {α : Type} (l : List (String × α)) (k : String) (v : α) :
    List (String × α) :=
  match l with
  | [] => [(k, v)]
  | (k', v') :: rest => if k' = k then (k, v) :: rest else (k', v') :: insertA rest k v

/-- Association-list removal, mirroring Go's `delete(m, k)`. -/
def eraseA {α : Type} (l : List (String × α)) (k : String) : List (String × α) :=
  match l with
  | [] => []
  | (k', v') :: rest => if k' = k then eraseA rest k else (k', v') :: eraseA rest k

/-- The repository state: the in-memory metadata index (`files` field of
`Repository`), the backing byte store on disk, and the current clock value
(`time.Now()`). The mutex is elided: the shallow embedding is sequential. -/
structure Store where
  files : List (String × FileInfo)
  disk : List (String × DiskEntry)
  now : Nat
deriving DecidableEq, Repr

/-- A store with an empty index and an empty backing directory. -/
def emptyStore : Store := ⟨[], [], 0⟩

/-! ## Repository operations (internal/repository/file, file.go) -/

/-- Go `unicode.IsSpace` (the White_Space property), used by
`strings.TrimSpace`. -/
def goIsSpace (c : Char) : Bool :=
  c = '\t' || c = '\n' || c = '\u000B' || c = '\u000C' || c = '\r' || c = ' ' ||
  c = '\u0085' || c = '\u00A0' || c = '\u1680' ||
  ('\u2000' ≤ c && c ≤ '\u200A') ||
  c = '\u2028' || c = '\u2029' || c = '\u202F' || c = '\u205F' || c = '\u3000'

/-- `strings.TrimSpace(s) == ""` holds exactly when every character of `s`
is white space (an empty string trivially so). -/
def trimSpaceEmpty (s : String) : Bool :=
  s.toList.all goIsSpace

/-- The fixed upload ceiling: `const maxFileSize = 10 * 1024 * 1024`. -/
def maxFileSize : Nat := 10 * 1024 * 1024

/-- Repository.validateFile: filename check, then size ceiling, then
non-emptiness. Returns the error it would produce, `none` on success. -/
def validateFile (filename : String) (data : List Nat) : Option GoErr :=
  if trimSpaceEmpty filename then some .errInvalidFilename
  else if data.length > maxFileSize then some .errFileTooLarge
  else if data.length = 0 then some .errFileIsEmpty
  else none

/-- Repository.SaveFile: validate, derive `fileID = md5Hex data`, return the
existing id untouched on a dedup hit, otherwise write the bytes to disk and
insert a fresh record. (The `os.WriteFile` success path is modelled; a write
failure would return a wrapped error without touching the index.) -/
def saveFile (s : Store) (filename : String) (data : List Nat) :
    Except GoErr String × Store :=
  match validateFile filename data with
  | some e => (.error e, s)
  | none =>
    let fileID := md5Hex data
    match lookupA s.files fileID with
    | some _ => (.ok fileID, s)
    | none =>
      let fi : FileInfo := ⟨fileID, filename, s.now, s.now, data.length⟩
      (.ok fileID,
        { s with
          disk := insertA s.disk fileID ⟨data, false, false⟩,
          files := insertA s.files fileID fi })

/-- `os.ReadFile` against the modelled disk. -/
def readDisk (disk : List (String × DiskEntry)) (fileID : String) :
    Except IOErr (List Nat) :=
  match lookupA disk fileID with
  | none => .error .notExist
  | some e => if e.readFails then .error .other else .ok e.data

/-- Repository.GetFile: empty-id check, index lookup, disk read. A not-exist
read error evicts the stale index entry and returns ErrFileNotFound; any
other read error returns the wrapped read error and leaves the index alone. -/
def getFile (s : Store) (fileID : String) : Except GoErr File × Store :=
  if fileID = "" then (.error .errInvalidFileID, s)
  else
    match lookupA s.files fileID with
    | none => (.error .errFileNotFound, s)
    | some fi =>
      match readDisk s.disk fileID with
      | .error .notExist =>
        (.error .errFileNotFound, { s with files := eraseA s.files fileID })
      | .error .other =>
        (.error (.wrapped "FAILED TO READ FILE" (.ioErr .other)), s)
      | .ok data => (.ok ⟨fi, data⟩, s)

/-- Repository.ListFiles: a snapshot copy of all index records. -/
def listFiles (s : Store) : List FileInfo :=
  s.files.map (fun p => p.2)

/-- Repository.GetFileInfo: metadata lookup without reading bytes. -/
def getFileInfo (s : Store) (fileID : String) : Except GoErr FileInfo :=
  if fileID = "" then .error .errInvalidFileID
  else
    match lookupA s.files fileID with
    | none => .error .errFileNotFound
    | some fi => .ok fi

/-- `os.Remove` against the modelled disk. -/
def removeDisk (disk : List (String × DiskEntry)) (fileID : String) :
    Except IOErr (List (String × DiskEntry)) :=
  match lookupA disk fileID with
  | none => .error .notExist
  | some e => if e.removeFails then .error .other else .ok (eraseA disk fileID)

/-- Repository.DeleteFile: empty-id check; `os.Remove` whose not-exist error
is ignored, any other failure returns ErrFailToDeleteFile before the index
is touched; on the non-failing paths the index entry is always removed. -/
def deleteFile (s : Store) (fileID : String) : Except GoErr Unit × Store :=
  if fileID = "" then (.error .errInvalidFileID, s)
  else
    match removeDisk s.disk fileID with
    | .error .other => (.error .errFailToDeleteFile, s)
    | .error .notExist => (.ok (), { s with files := eraseA s.files fileID })
    | .ok disk' => (.ok (), { s with disk := disk', files := eraseA s.files fileID })

/-- Repository.GetStats: the record count and the running total of the Size
fields, accumulated by the same loop as the Go code. -/
def getStats (s : Store) : Nat × Nat :=
  (s.files.length, s.files.foldl (fun acc p => acc + p.2.size) 0)

/-- One entry returned by `os.ReadDir` over the storage directory. `infoErr`
models `entry.Info()` failing. -/
structure DirEntry where
  name : String
  isDir : Bool
  infoErr : Bool
  modTime : Nat
  size : Nat
deriving DecidableEq, Repr

/-- The index record built for a scanned object: ID and placeholder filename
both the object name, both timestamps its mod time, size its byte length. -/
def recordOfEntry (e : DirEntry) : FileInfo :=
  ⟨e.name, e.name, e.modTime, e.modTime, e.size⟩

/-- Repository.loadExistingFiles: scan the directory entries in order,
skipping subdirectories and entries whose Info() errors, and populate the
index. -/
def loadExistingFiles (entries : List DirEntry) : List (String × FileInfo) :=
  entries.foldl
    (fun acc e =>
      if e.isDir then acc
      else if e.infoErr then acc
      else insertA acc e.name (recordOfEntry e)) []

/-! ## Controller layer (internal/controller/file/controller.go)

The controller checks its context (cancellation is outside this sequential
embedding: we model the not-cancelled path), delegates to the repository and
wraps every repository error in `fmt.Errorf("...: %w", err)`. -/

/-- Controller.UploadFile. -/
def ctrlUploadFile (s : Store) (filename : String) (data : List Nat) :
    Except GoErr String × Store :=
  match saveFile s filename data with
  | (.error e, s') => (.error (.wrapped "FAILED TO SAVE FILE" e), s')
  | (.ok id, s') => (.ok id, s')

/-- Controller.GetFile, producing model.GetResponse (filename, data). -/
def ctrlGetFile (s : Store) (fileID : String) :
    Except GoErr (String × List Nat) × Store :=
  match getFile s fileID with
  | (.error e, s') => (.error (.wrapped "FAILED TO GET FILE" e), s')
  | (.ok f, s') => (.ok (f.info.filename, f.data), s')

/-- Controller.ListFiles. -/
def ctrlListFiles (s : Store) : Except GoErr (List FileInfo) × Store :=
  (.ok (listFiles s), s)

/-! ## gRPC handler (internal/handler/grpc/handler.go) -/

/-- gRPC status codes used by the handler (plus the codes the spec expects
for admission rejections). A plain non-status error reaching the gRPC
runtime surfaces as `unknown`. -/
inductive Code where
  | ok
  | invalidArgument
  | notFound
  | internal
  | resourceExhausted
  | unknown
deriving DecidableEq, Repr

/-- A transport status: code and message. -/
structure GrpcStatus where
  code : Code
  msg : String
deriving DecidableEq, Repr

/-- Whether a GoErr value is one of the package-level sentinel errors (a
distinct allocation such as a `fmt.Errorf` result is never `==` to one). -/
def isSentinel : GoErr → Bool
  | .wrapped _ _ => false
  | .ioErr _ => false
  | _ => true

/-- Go's `==` on error interface values, as used by `switch err`: true only
for the very same sentinel value. -/
def errEq (a b : GoErr) : Bool :=
  isSentinel a && isSentinel b && a == b

/-- Handler.handleError: the `switch err` mapping domain errors to statuses. -/
def handleError (err : GoErr) : GrpcStatus :=
  if errEq err .errFileNotFound then ⟨.notFound, "FILE NOT FOUND"⟩
  else if errEq err .errInvalidFileID then ⟨.invalidArgument, "INVALID FILE ID"⟩
  else if errEq err .errFileTooLarge then ⟨.invalidArgument, "FILE IS TOO LARGE"⟩
  else if errEq err .errInvalidFilename then ⟨.invalidArgument, "INVALID FILENAME"⟩
  else if errEq err .errStorageUnavailable then ⟨.internal, "STORAGE UNAVAILABLE"⟩
  else ⟨.internal, "INTERNAL ERROR"⟩

/-- Handler.UploadFile: reject an empty filename, then an empty payload,
with InvalidArgument before the controller is invoked; otherwise delegate
and convert controller errors through handleError. -/
def handlerUploadFile (s : Store) (filename : String) (data : List Nat) :
    Except GrpcStatus String × Store :=
  if filename = "" then (.error ⟨.invalidArgument, "filename is required"⟩, s)
  else if data.length = 0 then (.error ⟨.invalidArgument, "data is required"⟩, s)
  else
    match ctrlUploadFile s filename data with
    | (.error e, s') => (.error (handleError e), s')
    | (.ok id, s') => (.ok id, s')

/-- Handler.GetFile: reject an empty file id with InvalidArgument, otherwise
delegate and convert controller errors through handleError. -/
def handlerGetFile (s : Store) (fileID : String) :
    Except GrpcStatus (String × List Nat) × Store :=
  if fileID = "" then (.error ⟨.invalidArgument, "file_id is required"⟩, s)
  else
    match ctrlGetFile s fileID with
    | (.error e, s') => (.error (handleError e), s')
    | (.ok r, s') => (.ok r, s')

/-! ## Concurrency limiter (internal/middleware/concurrency.go)

The middleware admits a request by a non-blocking send on a buffered
channel. The shallow embedding tracks the number of occupied slots of each
semaphore; a burst of simultaneous calls is a sequence of try-acquires with
no intervening release. -/

/-- Capacity of uploadSemaphore: `make(chan struct\x7b\x7d, 10)`. -/
def uploadSemCap : Nat := 10

/-- Capacity of listSemaphore: `make(chan struct\x7b\x7d, 100)`. -/
def listSemCap : Nat := 100

/-- Occupied slots of the two semaphores. -/
structure LimiterState where
  uploadSlots : Nat
  listSlots : Nat
deriving DecidableEq, Repr

/-- The idle limiter returned by NewConcurrencyLimiter. -/
def newConcurrencyLimiter : LimiterState := ⟨0, 0⟩

/-- Outcome of one try-acquire on a semaphore. -/
inductive Verdict where
  | granted
  | rejected (msg : String)
deriving DecidableEq, Repr

/-- handleUploadDownload: try-acquire on uploadSemaphore, rejecting with the
max-10 message when it is full. -/
def handleUploadDownload (st : LimiterState) : Verdict × LimiterState :=
  if st.uploadSlots < uploadSemCap then
    (.granted, { st with uploadSlots := st.uploadSlots + 1 })
  else (.rejected "Too many conc upload/download requests, max 10", st)

/-- handleList as written at the cited lines: the select tries
`cl.uploadSemaphore <- struct\x7b\x7d\x7b\x7d` — the UPLOAD semaphore — so a
list call competes for the 10 upload slots; `listSemaphore` is never used. -/
def handleList (st : LimiterState) : Verdict × LimiterState :=
  if st.uploadSlots < uploadSemCap then
    (.granted, { st with uploadSlots := st.uploadSlots + 1 })
  else (.rejected "Too many conc list requests, max 10", st)

/-- A burst of `n` simultaneous ListFiles attempts (no releases in between):
returns (granted count, rejected count, final state). -/
def listBurst : Nat → LimiterState → Nat × Nat × LimiterState
  | 0, st => (0, 0, st)
  | n + 1, st =>
    let r := handleList st
    let rest := listBurst n r.2
    match r.1 with
    | .granted => (rest.1 + 1, rest.2.1, rest.2.2)
    | .rejected _ => (rest.1, rest.2.1 + 1, rest.2.2)

/-- A whole interaction scenario: upload a batch of (filename, payload)
pairs in sequence. -/
def uploadAll (s : Store) : List (String × List Nat) → Store
  | [] => s
  | p :: rest => uploadAll (saveFile s p.1 p.2).2 rest

/-- The admission error produced by the limiter is a plain `fmt.Errorf`
value (not a gRPC status): the transport surfaces it as `unknown`, and
`handleError` never sees it. -/
def limiterRejectionStatus : GrpcStatus :=
  ⟨.unknown, "Too many conc list requests, max 10"⟩

set_option maxRecDepth 100000

/-- RFC 1321 test vector: MD5 of the empty message. -/
theorem md5Hex_empty_vector : md5Hex [] = "d41d8cd98f00b204e9800998ecf8427e" := by
  decide

/-- RFC 1321 test vector: MD5 of "abc". -/
theorem md5Hex_abc_vector :
    md5Hex [0x61, 0x62, 0x63] = "900150983cd24fb0d6963f7d28e17f72" := by
  decide

/-- Unfolding equation for the content id, usable once md5Hex is made
irreducible below. -/
theorem md5Hex_def (data : List Nat) : md5Hex data = hexEncode (md5Bytes data) :=
  rfl

attribute [irreducible] md5Hex

/-! ## Helper lemmas: association lists -/

/-- Looking up the key just inserted yields the inserted value. -/
theorem lookupA_insertA_self {α : Type} (l : List (String × α)) (k : String) (v : α) :
    lookupA (insertA l k v) k = some v := by
  induction l with
  | nil => simp [insertA, lookupA]
  | cons p rest ih =>
    obtain ⟨k', v'⟩ := p
    by_cases h : k' = k
    · simp [insertA, h, lookupA]
    · simp [insertA, h, lookupA, ih]

/-- Looking up a key just removed yields nothing. -/
theorem lookupA_eraseA_self {α : Type} (l : List (String × α)) (k : String) :
    lookupA (eraseA l k) k = none := by
  induction l with
  | nil => rfl
  | cons p rest ih =>
    obtain ⟨k', v'⟩ := p
    by_cases h : k' = k
    · simp [eraseA, h, ih]
    · simp [eraseA, h, lookupA, ih]

/-- Inserting an absent key appends the binding at the end. -/
theorem insertA_of_lookupA_none {α : Type} {l : List (String × α)} {k : String}
    (v : α) (h : lookupA l k = none) : insertA l k v = l ++ [(k, v)] := by
  induction l with
  | nil => rfl
  | cons p rest ih =>
    obtain ⟨k', v'⟩ := p
    by_cases hk : k' = k
    · simp [lookupA, hk] at h
    · simp [lookupA, hk] at h
      simp [insertA, hk, ih h]

/-- A lookup that misses the left list continues in the right list. -/
theorem lookupA_append_of_none {α : Type} {l1 : List (String × α)} {k : String}
    (l2 : List (String × α)) (h1 : lookupA l1 k = none) :
    lookupA (l1 ++ l2) k = lookupA l2 k := by
  induction l1 with
  | nil => rfl
  | cons p rest ih =>
    obtain ⟨k', v'⟩ := p
    by_cases hk : k' = k
    · simp [lookupA, hk] at h1
    · simp [lookupA, hk] at h1 ⊢
      exact ih h1

/-! ## Helper lemmas: shape of the content identifier -/

/-- The MD5 digest is always 16 bytes. -/
theorem md5Bytes_length (msg : List Nat) : (md5Bytes msg).length = 16 := by
  simp [md5Bytes, le32]

/-- The character list produced by hexEncode has two characters per byte. -/
theorem hexChars_length (bs : List Nat) :
    (bs.foldr (fun b acc =>
        hexTable.getD (b / 16) '0' :: hexTable.getD (b % 16) '0' :: acc) []).length
      = 2 * bs.length := by
  induction bs with
  | nil => rfl
  | cons b rest ih =>
    simp only [List.foldr_cons, List.length_cons, ih]
    ring

/-- hexEncode doubles the length. -/
theorem hexEncode_length (bs : List Nat) : (hexEncode bs).length = 2 * bs.length := by
  simpa [hexEncode, String.length] using hexChars_length bs

/-- The content id is always 32 characters long. -/
theorem md5Hex_length (data : List Nat) : (md5Hex data).length = 32 := by
  simp [md5Hex, hexEncode_length, md5Bytes_length]

/-- The content id is never the empty string. -/
theorem md5Hex_ne_empty (data : List Nat) : md5Hex data ≠ "" := by
  intro h
  have h32 := md5Hex_length data
  rw [h] at h32
  simp at h32

/-- Any index into the hex alphabet lands inside the alphabet. -/
theorem hexTable_getD_mem (i : Nat) : hexTable.getD i '0' ∈ hexTable := by
  by_cases hi : i < hexTable.length
  · rw [List.getD_eq_getElem _ _ hi]
    exact List.getElem_mem hi
  · rw [List.getD_eq_default _ _ (Nat.le_of_not_lt hi)]
    decide

/-- Every character of a hexEncode output is a lowercase hex digit. -/
theorem hexEncode_chars (bs : List Nat) :
    ∀ c ∈ (hexEncode bs).toList, c ∈ hexTable := by
  show ∀ c ∈ (bs.foldr (fun b acc =>
      hexTable.getD (b / 16) '0' :: hexTable.getD (b % 16) '0' :: acc) []), c ∈ hexTable
  induction bs with
  | nil => intro c hc; cases hc
  | cons b rest ih =>
    intro c hc
    simp only [List.foldr_cons, List.mem_cons] at hc
    rcases hc with rfl | rfl | hc
    · exact hexTable_getD_mem _
    · exact hexTable_getD_mem _
    · exact ih c hc

/-- Every character of a content id is a lowercase hex digit. -/
theorem md5Hex_chars (data : List Nat) :
    ∀ c ∈ (md5Hex data).toList, c ∈ hexTable := by
  rw [md5Hex_def]
  exact hexEncode_chars _

/-! ## Helper lemmas: repository operations -/

/-- A validation failure aborts SaveFile with that very error and an
untouched store. -/
theorem saveFile_validation_err (s : Store) (f : String) (data : List Nat)
    (e : GoErr) (h : validateFile f data = some e) :
    saveFile s f data = (.error e, s) := by
  simp [saveFile, h]

/-- A dedup hit: the content id is already indexed, so SaveFile returns it
without touching anything. -/
theorem saveFile_dedup (s : Store) (f : String) (data : List Nat) (v : FileInfo)
    (hval : validateFile f data = none)
    (hmem : lookupA s.files (md5Hex data) = some v) :
    saveFile s f data = (.ok (md5Hex data), s) := by
  simp [saveFile, hval, hmem]

/-- A fresh save: the bytes go to disk and a new record enters the index. -/
theorem saveFile_fresh (s : Store) (f : String) (data : List Nat)
    (hval : validateFile f data = none)
    (hfresh : lookupA s.files (md5Hex data) = none) :
    saveFile s f data = (.ok (md5Hex data),
      { s with
        disk := insertA s.disk (md5Hex data) ⟨data, false, false⟩,
        files := insertA s.files (md5Hex data)
          ⟨md5Hex data, f, s.now, s.now, data.length⟩ }) := by
  simp [saveFile, hval, hfresh]

/-- The only errors SaveFile can return are validation errors. -/
theorem saveFile_error_inv (s : Store) (f : String) (data : List Nat) (e : GoErr)
    (h : (saveFile s f data).1 = .error e) : validateFile f data = some e := by
  cases hv : validateFile f data with
  | some e' =>
    rw [saveFile_validation_err s f data e' hv] at h
    simp at h
    simp [hv, h]
  | none =>
    cases hl : lookupA s.files (md5Hex data) with
    | some v =>
      rw [saveFile_dedup s f data v hv hl] at h
      simp at h
    | none =>
      rw [saveFile_fresh s f data hv hl] at h
      simp at h

/-- After any successful validation, SaveFile leaves the content id bound in
the index. -/
theorem saveFile_lookup_some (s : Store) (f : String) (data : List Nat)
    (hval : validateFile f data = none) :
    ∃ v, lookupA (saveFile s f data).2.files (md5Hex data) = some v := by
  cases hl : lookupA s.files (md5Hex data) with
  | some v => exact ⟨v, by rw [saveFile_dedup s f data v hval hl]; exact hl⟩
  | none =>
    exact ⟨⟨md5Hex data, f, s.now, s.now, data.length⟩, by
      rw [saveFile_fresh s f data hval hl]
      exact lookupA_insertA_self _ _ _⟩

/-- validateFile yields InvalidFilename exactly on an empty or
whitespace-only filename. -/
theorem validateFile_invalidFilename_iff (f : String) (data : List Nat) :
    validateFile f data = some .errInvalidFilename ↔ trimSpaceEmpty f = true := by
  unfold validateFile
  split_ifs with h1 h2 h3 <;> simp_all

/-- validateFile yields FileTooLarge exactly when the filename passed and
the payload exceeds the 10 MiB ceiling. -/
theorem validateFile_tooLarge_iff (f : String) (data : List Nat) :
    validateFile f data = some .errFileTooLarge ↔
      (trimSpaceEmpty f = false ∧ maxFileSize < data.length) := by
  unfold validateFile
  split_ifs with h1 h2 h3 <;> simp_all

/-- validateFile yields FileEmpty exactly when the filename and the size
ceiling passed and the payload is empty. -/
theorem validateFile_empty_iff (f : String) (data : List Nat) :
    validateFile f data = some .errFileIsEmpty ↔
      (trimSpaceEmpty f = false ∧ data.length ≤ maxFileSize ∧ data.length = 0) := by
  unfold validateFile
  split_ifs with h1 h2 h3 <;> simp_all

/-! ## Helper lemmas: startup scan and batch uploads -/

/-- Generalised startup-scan lemma: folding the directory entries onto any
accumulator whose keys avoid the (distinct, readable) entry names appends
exactly one binding per regular file, in scan order. -/
theorem loadExistingFiles_go (entries : List DirEntry) :
    ∀ acc : List (String × FileInfo),
    (entries.map (fun e => e.name)).Nodup →
    (∀ e ∈ entries, e.infoErr = false) →
    (∀ e ∈ entries, lookupA acc e.name = none) →
    entries.foldl
      (fun acc e =>
        if e.isDir then acc
        else if e.infoErr then acc
        else insertA acc e.name (recordOfEntry e)) acc
      = acc ++ (entries.filter (fun e => !e.isDir)).map
          (fun e => (e.name, recordOfEntry e)) := by
  induction entries with
  | nil => intro acc _ _ _; simp
  | cons e rest ih =>
    intro acc hnd hie hkeys
    rw [List.map_cons, List.nodup_cons] at hnd
    have hnd' : (rest.map (fun e => e.name)).Nodup := hnd.2
    have hname : e.name ∉ rest.map (fun e => e.name) := hnd.1
    have hie' : ∀ x ∈ rest, x.infoErr = false := fun x hx => hie x (by simp [hx])
    have hieh : e.infoErr = false := hie e (by simp)
    by_cases hd : e.isDir
    · have hkeys' : ∀ x ∈ rest, lookupA acc x.name = none :=
        fun x hx => hkeys x (by simp [hx])
      simpa [List.foldl_cons, hd] using ih acc hnd' hie' hkeys'
    · have hins : insertA acc e.name (recordOfEntry e) = acc ++ [(e.name, recordOfEntry e)] :=
        insertA_of_lookupA_none _ (hkeys e (by simp))
      have hkeys' : ∀ x ∈ rest,
          lookupA (acc ++ [(e.name, recordOfEntry e)]) x.name = none := by
        intro x hx
        rw [lookupA_append_of_none _ (hkeys x (by simp [hx]))]
        have hne : e.name ≠ x.name := by
          intro hcontr
          exact hname (hcontr ▸ List.mem_map_of_mem (fun e => e.name) hx)
        simp [lookupA, hne]
      have := ih (acc ++ [(e.name, recordOfEntry e)]) hnd' hie' hkeys'
      simp only [List.foldl_cons, hd, if_false, hieh, hins] at this ⊢
      simpa [List.filter_cons, hd, List.append_assoc] using this

/-- The Go accumulation loop of GetStats computes the sum of the sizes. -/
theorem foldl_size_sum (l : List (String × FileInfo)) (a : Nat) :
    l.foldl (fun acc q => acc + q.2.size) a = a + (l.map (fun q => q.2.size)).sum := by
  induction l generalizing a with
  | nil => simp
  | cons q rest ih => simp [ih]; ring

/-- Generalised batch-upload lemma: uploading distinct, fresh, valid
contents appends one record per upload, so the index grows by the batch
size and the size total by the payload lengths. -/
theorem uploadAll_stats_go (ps : List (String × List Nat)) :
    ∀ s : Store,
    (∀ p ∈ ps, validateFile p.1 p.2 = none) →
    (ps.map (fun p => md5Hex p.2)).Nodup →
    (∀ p ∈ ps, lookupA s.files (md5Hex p.2) = none) →
    (uploadAll s ps).files.length = s.files.length + ps.length ∧
    ((uploadAll s ps).files.map (fun q => q.2.size)).sum
      = (s.files.map (fun q => q.2.size)).sum + (ps.map (fun p => p.2.length)).sum := by
  induction ps with
  | nil => intro s _ _ _; simp [uploadAll]
  | cons p rest ih =>
    intro s hval hnd hfresh
    rw [List.map_cons, List.nodup_cons] at hnd
    have hv : validateFile p.1 p.2 = none := hval p (by simp)
    have hf : lookupA s.files (md5Hex p.2) = none := hfresh p (by simp)
    have hnd' : (rest.map (fun q => md5Hex q.2)).Nodup := hnd.2
    have hhd : md5Hex p.2 ∉ rest.map (fun q => md5Hex q.2) := hnd.1
    have hval' : ∀ q ∈ rest, validateFile q.1 q.2 = none :=
      fun q hq => hval q (by simp [hq])
    have hs1 : (saveFile s p.1 p.2).2.files
        = s.files ++ [(md5Hex p.2, ⟨md5Hex p.2, p.1, s.now, s.now, p.2.length⟩)] := by
      rw [saveFile_fresh s p.1 p.2 hv hf]
      exact insertA_of_lookupA_none _ hf
    have hfresh' : ∀ q ∈ rest,
        lookupA (saveFile s p.1 p.2).2.files (md5Hex q.2) = none := by
      intro q hq
      rw [hs1, lookupA_append_of_none _ (hfresh q (by simp [hq]))]
      have hne : md5Hex p.2 ≠ md5Hex q.2 := by
        intro hcontr
        exact hhd (hcontr ▸ List.mem_map_of_mem (fun q => md5Hex q.2) hq)
      simp [lookupA, hne]
    have hrec := ih (saveFile s p.1 p.2).2 hval' hnd' hfresh'
    have hlen : (saveFile s p.1 p.2).2.files.length = s.files.length + 1 := by
      rw [hs1]; simp
    have hsum : ((saveFile s p.1 p.2).2.files.map (fun q => q.2.size)).sum
        = (s.files.map (fun q => q.2.size)).sum + p.2.length := by
      rw [hs1]; simp
    constructor
    · show (uploadAll (saveFile s p.1 p.2).2 rest).files.length = _
      rw [hrec.1, hlen]
      simp [Nat.add_assoc, Nat.add_comm 1 rest.length]
    · show ((uploadAll (saveFile s p.1 p.2).2 rest).files.map (fun q => q.2.size)).sum = _
      rw [hrec.2, hsum]
      simp [List.map_cons, List.sum_cons]
      ring

/-! ## The claims -/

/-- C1: the claim states that ListFiles admissions are gated only by the
100-slot listing pool, and that 110 simultaneous List calls on an idle
controller yield exactly 100 admissions and 10 rejections. The cited
handleList instead performs its try-acquire on the 10-slot upload
semaphore: an idle limiter grants exactly 10 of 110 simultaneous List
calls, rejects the other 100 with the max-10 message, and the 100-slot
list semaphore ends the burst untouched. -/
theorem claim_C1_listing_gated_by_upload_pool :
    listBurst 110 newConcurrencyLimiter = (10, 100, ⟨10, 0⟩) ∧
    listSemCap = 100 ∧
    uploadSemCap = 10 ∧
    (∀ st : LimiterState, ((handleList st).2).listSlots = st.listSlots) := by
  refine ⟨by decide, rfl, rfl, ?_⟩
  intro st
  unfold handleList
  by_cases h : st.uploadSlots < uploadSemCap <;> simp [h]

/-- C2: the claim states that the gRPC handler maps each domain error kind
to its distinct status and surfaces admission rejections as
resource-exhausted. handleError does contain those distinct branches for
the raw sentinels, but the controller wraps every repository error in
`fmt.Errorf("...: %w", err)` and handleError compares with `switch err`
(Go `==`), so the wrapped error matches no branch: a GetFile on a missing
id surfaces as Internal, not NotFound. The limiter rejection is a plain
error the transport reports as Unknown; no resource-exhausted branch
exists. -/
theorem claim_C2_error_mapping_collapses :
    (handlerGetFile emptyStore "deadbeef").1
        = .error ⟨.internal, "INTERNAL ERROR"⟩ ∧
    handleError (.wrapped "FAILED TO GET FILE" .errFileNotFound)
        = ⟨.internal, "INTERNAL ERROR"⟩ ∧
    handleError .errFileNotFound = ⟨.notFound, "FILE NOT FOUND"⟩ ∧
    handleError .errInvalidFileID = ⟨.invalidArgument, "INVALID FILE ID"⟩ ∧
    handleError .errFileTooLarge = ⟨.invalidArgument, "FILE IS TOO LARGE"⟩ ∧
    handleError .errInvalidFilename = ⟨.invalidArgument, "INVALID FILENAME"⟩ ∧
    handleError .errStorageUnavailable = ⟨.internal, "STORAGE UNAVAILABLE"⟩ ∧
    limiterRejectionStatus.code ≠ .resourceExhausted :=
  ⟨rfl, rfl, rfl, rfl, rfl, rfl, rfl, by decide⟩

/-- C3 counterexample: with a non-empty id present in the index and the
backing object present but failing to read with a non-not-exist error,
GetFile returns the wrapped FAILED-TO-READ-FILE error, not the
ErrStorageUnavailable sentinel the claim names. -/
theorem claim_C3_counterexample :
    (getFile ⟨[("aa", ⟨"aa", "f.txt", 0, 0, 1⟩)], [("aa", ⟨[1], true, false⟩)], 0⟩
        "aa").1
      = .error (.wrapped "FAILED TO READ FILE" (.ioErr .other)) ∧
    (getFile ⟨[("aa", ⟨"aa", "f.txt", 0, 0, 1⟩)], [("aa", ⟨[1], true, false⟩)], 0⟩
        "aa").1
      ≠ .error .errStorageUnavailable :=
  ⟨rfl, by decide⟩

/-- C3 (amended): for every non-empty id present in the index, a read that
fails because the object is absent evicts the stale entry and fails with
NotFound; any other read failure fails with the wrapped FAILED-TO-READ-FILE
error (not the StorageUnavailable sentinel) and leaves the index entry in
place. -/
theorem claim_C3_self_healing (s : Store) (id : String) (fi : FileInfo)
    (hid : id ≠ "") (hidx : lookupA s.files id = some fi) :
    (lookupA s.disk id = none →
      getFile s id = (.error .errFileNotFound, { s with files := eraseA s.files id }) ∧
      lookupA (eraseA s.files id) id = none) ∧
    (∀ e : DiskEntry, lookupA s.disk id = some e → e.readFails = true →
      getFile s id = (.error (.wrapped "FAILED TO READ FILE" (.ioErr .other)), s)) := by
  constructor
  · intro hdisk
    exact ⟨by simp [getFile, hid, hidx, readDisk, hdisk], lookupA_eraseA_self _ _⟩
  · intro e hdisk hrf
    simp [getFile, hid, hidx, readDisk, hdisk, hrf]

/-- Witness for C3: a concrete store with id "aa" indexed and the backing
object deleted out-of-band. -/
theorem claim_C3_witness :
    ("aa" : String) ≠ "" ∧
    lookupA [("aa", (⟨"aa", "f.txt", 0, 0, 1⟩ : FileInfo))] "aa"
        = some ⟨"aa", "f.txt", 0, 0, 1⟩ ∧
    ((lookupA ([] : List (String × DiskEntry)) "aa" = none →
        getFile ⟨[("aa", ⟨"aa", "f.txt", 0, 0, 1⟩)], [], 0⟩ "aa"
          = (.error .errFileNotFound,
             { (⟨[("aa", ⟨"aa", "f.txt", 0, 0, 1⟩)], [], 0⟩ : Store) with
               files := eraseA [("aa", ⟨"aa", "f.txt", 0, 0, 1⟩)] "aa" }) ∧
        lookupA (eraseA [("aa", (⟨"aa", "f.txt", 0, 0, 1⟩ : FileInfo))] "aa") "aa"
          = none) ∧
     (∀ e : DiskEntry, lookupA ([] : List (String × DiskEntry)) "aa" = some e →
        e.readFails = true →
        getFile ⟨[("aa", ⟨"aa", "f.txt", 0, 0, 1⟩)], [], 0⟩ "aa"
          = (.error (.wrapped "FAILED TO READ FILE" (.ioErr .other)),
             ⟨[("aa", ⟨"aa", "f.txt", 0, 0, 1⟩)], [], 0⟩))) :=
  ⟨by decide, by decide,
   claim_C3_self_healing ⟨[("aa", ⟨"aa", "f.txt", 0, 0, 1⟩)], [], 0⟩ "aa"
     ⟨"aa", "f.txt", 0, 0, 1⟩ (by decide) (by decide)⟩

/-- C4: SaveFile returns the lowercase hex MD5 of the payload as the id
(32 lowercase hex digits), and a second save of identical bytes under any
valid filename returns the same id while leaving the whole store — index,
records and disk — unchanged. -/
theorem claim_C4_content_id_and_dedup (s : Store) (f1 f2 : String) (data : List Nat)
    (h1 : validateFile f1 data = none) (h2 : validateFile f2 data = none) :
    (saveFile s f1 data).1 = .ok (md5Hex data) ∧
    (md5Hex data).length = 32 ∧
    (∀ c ∈ (md5Hex data).toList, c ∈ hexTable) ∧
    saveFile (saveFile s f1 data).2 f2 data
      = (.ok (md5Hex data), (saveFile s f1 data).2) := by
  obtain ⟨v, hv⟩ := saveFile_lookup_some s f1 data h1
  refine ⟨?_, md5Hex_length data, md5Hex_chars data,
    saveFile_dedup _ f2 data v h2 hv⟩
  cases hl : lookupA s.files (md5Hex data) with
  | some w => rw [saveFile_dedup s f1 data w h1 hl]
  | none => rw [saveFile_fresh s f1 data h1 hl]

/-- Witness for C4: two uploads of the same two bytes under different
names. -/
theorem claim_C4_witness :
    validateFile "a.txt" [104, 105] = none ∧
    validateFile "b.txt" [104, 105] = none ∧
    ((saveFile emptyStore "a.txt" [104, 105]).1 = .ok (md5Hex [104, 105]) ∧
     (md5Hex [104, 105]).length = 32 ∧
     (∀ c ∈ (md5Hex [104, 105]).toList, c ∈ hexTable) ∧
     saveFile (saveFile emptyStore "a.txt" [104, 105]).2 "b.txt" [104, 105]
       = (.ok (md5Hex [104, 105]), (saveFile emptyStore "a.txt" [104, 105]).2)) :=
  ⟨by decide, by decide,
   claim_C4_content_id_and_dedup emptyStore "a.txt" "b.txt" [104, 105]
     (by decide) (by decide)⟩

/-- C5: DeleteFile rejects an empty id with InvalidId; an already-absent
backing object is treated as success and the index entry is removed, so a
second delete succeeds and a subsequent GetFile fails NotFound; any other
disk-delete failure fails with DeleteFailed (leaving the store as it was);
a delete that hits removes both the object and the index entry, after
which a repeat delete succeeds and GetFile fails NotFound. -/
theorem claim_C5_delete_idempotent (s : Store) (id : String) (hid : id ≠ "") :
    (deleteFile s "").1 = .error .errInvalidFileID ∧
    (lookupA s.disk id = none →
      deleteFile s id = (.ok (), { s with files := eraseA s.files id }) ∧
      (deleteFile (deleteFile s id).2 id).1 = .ok () ∧
      (getFile (deleteFile s id).2 id).1 = .error .errFileNotFound) ∧
    (∀ e : DiskEntry, lookupA s.disk id = some e → e.removeFails = true →
      deleteFile s id = (.error .errFailToDeleteFile, s)) ∧
    (∀ e : DiskEntry, lookupA s.disk id = some e → e.removeFails = false →
      deleteFile s id
          = (.ok (), { s with disk := eraseA s.disk id, files := eraseA s.files id }) ∧
      (deleteFile (deleteFile s id).2 id).1 = .ok () ∧
      (getFile (deleteFile s id).2 id).1 = .error .errFileNotFound) := by
  refine ⟨by simp [deleteFile], ?_, ?_, ?_⟩
  · intro hdisk
    have hdel : deleteFile s id = (.ok (), { s with files := eraseA s.files id }) := by
      simp [deleteFile, hid, removeDisk, hdisk]
    refine ⟨hdel, ?_, ?_⟩
    · rw [hdel]
      simp [deleteFile, hid, removeDisk, hdisk]
    · rw [hdel]
      simp [getFile, hid, lookupA_eraseA_self]
  · intro e hdisk hrm
    simp [deleteFile, hid, removeDisk, hdisk, hrm]
  · intro e hdisk hrm
    have hdel : deleteFile s id
        = (.ok (), { s with disk := eraseA s.disk id, files := eraseA s.files id }) := by
      simp [deleteFile, hid, removeDisk, hdisk, hrm]
    refine ⟨hdel, ?_, ?_⟩
    · rw [hdel]
      simp [deleteFile, hid, removeDisk, lookupA_eraseA_self]
    · rw [hdel]
      simp [getFile, hid, lookupA_eraseA_self]

/-- Witness for C5: deleting an indexed one-byte object. -/
theorem claim_C5_witness :
    ("aa" : String) ≠ "" ∧
    deleteFile ⟨[("aa", ⟨"aa", "f.txt", 0, 0, 1⟩)], [("aa", ⟨[7], false, false⟩)], 0⟩ "aa"
      = (.ok (), ⟨eraseA [("aa", ⟨"aa", "f.txt", 0, 0, 1⟩)] "aa",
                  eraseA [("aa", ⟨[7], false, false⟩)] "aa", 0⟩) ∧
    (getFile (deleteFile
        ⟨[("aa", ⟨"aa", "f.txt", 0, 0, 1⟩)], [("aa", ⟨[7], false, false⟩)], 0⟩ "aa").2
        "aa").1 = .error .errFileNotFound := by
  have h := claim_C5_delete_idempotent
    ⟨[("aa", ⟨"aa", "f.txt", 0, 0, 1⟩)], [("aa", ⟨[7], false, false⟩)], 0⟩ "aa" (by decide)
  have h4 := h.2.2.2 ⟨[7], false, false⟩ (by decide) rfl
  exact ⟨by decide, h4.1, h4.2.2⟩

/-- C6: validateFile fails with InvalidFilename exactly on an empty or
whitespace-only filename (checked first), with FileTooLarge exactly when
the filename passed and the payload exceeds 10 MiB = 10*1024*1024 bytes,
and with FileEmpty exactly when the filename and the ceiling passed and the
payload is empty; on every validation failure SaveFile returns that error
with the store — disk and index — untouched. -/
theorem claim_C6_validation_rules (s : Store) (f : String) (data : List Nat) :
    (validateFile f data = some .errInvalidFilename ↔ trimSpaceEmpty f = true) ∧
    (validateFile f data = some .errFileTooLarge ↔
      (trimSpaceEmpty f = false ∧ maxFileSize < data.length)) ∧
    (validateFile f data = some .errFileIsEmpty ↔
      (trimSpaceEmpty f = false ∧ data.length ≤ maxFileSize ∧ data.length = 0)) ∧
    (∀ e, validateFile f data = some e → saveFile s f data = (.error e, s)) :=
  ⟨validateFile_invalidFilename_iff f data, validateFile_tooLarge_iff f data,
   validateFile_empty_iff f data, fun e he => saveFile_validation_err s f data e he⟩

/-- Witness for C6: a whitespace-only name, an exactly-10MiB payload
(accepted), a 10MiB+1 payload (rejected) and an empty payload. -/
theorem claim_C6_witness :
    validateFile " " [1] = some .errInvalidFilename ∧
    saveFile emptyStore " " [1] = (.error .errInvalidFilename, emptyStore) ∧
    validateFile "a" (List.replicate (maxFileSize + 1) 0) = some .errFileTooLarge ∧
    validateFile "a" (List.replicate maxFileSize 0) ≠ some .errFileTooLarge ∧
    validateFile "a" [] = some .errFileIsEmpty := by
  have h1 := claim_C6_validation_rules emptyStore " " [1]
  have h2 := claim_C6_validation_rules emptyStore "a" (List.replicate (maxFileSize + 1) 0)
  have h2b := claim_C6_validation_rules emptyStore "a" (List.replicate maxFileSize 0)
  have h3 := claim_C6_validation_rules emptyStore "a" ([] : List Nat)
  have hemp : validateFile " " [1] = some .errInvalidFilename := h1.1.mpr (by decide)
  refine ⟨hemp, h1.2.2.2 _ hemp, ?_, ?_, h3.2.2.1.mpr ⟨by decide, by decide, rfl⟩⟩
  · refine h2.2.1.mpr ⟨by decide, ?_⟩
    simp [List.length_replicate]
  · intro hc
    have hlt := (h2b.2.1.mp hc).2
    simp [List.length_replicate] at hlt

/-- C7: for a valid filename and payload whose content is not yet stored,
GetFile applied to the id returned by SaveFile returns exactly the original
bytes together with metadata carrying the supplied filename. -/
theorem claim_C7_roundtrip (s : Store) (f : String) (data : List Nat)
    (hval : validateFile f data = none)
    (hfresh : lookupA s.files (md5Hex data) = none) :
    (saveFile s f data).1 = .ok (md5Hex data) ∧
    getFile (saveFile s f data).2 (md5Hex data)
      = (.ok ⟨⟨md5Hex data, f, s.now, s.now, data.length⟩, data⟩,
         (saveFile s f data).2) := by
  rw [saveFile_fresh s f data hval hfresh]
  refine ⟨rfl, ?_⟩
  simp [getFile, md5Hex_ne_empty data, lookupA_insertA_self, readDisk]

/-- Witness for C7: uploading three bytes to an empty store and reading
them back. -/
theorem claim_C7_witness :
    validateFile "photo.png" [1, 2, 3] = none ∧
    lookupA emptyStore.files (md5Hex [1, 2, 3]) = none ∧
    ((saveFile emptyStore "photo.png" [1, 2, 3]).1 = .ok (md5Hex [1, 2, 3]) ∧
     getFile (saveFile emptyStore "photo.png" [1, 2, 3]).2 (md5Hex [1, 2, 3])
       = (.ok ⟨⟨md5Hex [1, 2, 3], "photo.png", 0, 0, 3⟩, [1, 2, 3]⟩,
          (saveFile emptyStore "photo.png" [1, 2, 3]).2)) :=
  ⟨by decide, rfl, claim_C7_roundtrip emptyStore "photo.png" [1, 2, 3] (by decide) rfl⟩

/-- C8: rebuilding the index over a populated directory produces exactly
one record per regular file (subdirectories skipped), in scan order, with
ID and placeholder filename the object name, both timestamps its last
modification time and the size its byte length; ListFiles then returns one
record per object with ids matching the object keys. -/
theorem claim_C8_restart_recovery (entries : List DirEntry)
    (d : List (String × DiskEntry)) (t : Nat)
    (hnd : (entries.map (fun e => e.name)).Nodup)
    (hie : ∀ e ∈ entries, e.infoErr = false) :
    loadExistingFiles entries
        = (entries.filter (fun e => !e.isDir)).map (fun e => (e.name, recordOfEntry e)) ∧
    listFiles ⟨loadExistingFiles entries, d, t⟩
        = (entries.filter (fun e => !e.isDir)).map recordOfEntry ∧
    (listFiles ⟨loadExistingFiles entries, d, t⟩).map (fun r => r.id)
        = (entries.filter (fun e => !e.isDir)).map (fun e => e.name) := by
  have h0 := loadExistingFiles_go entries [] hnd hie (fun _ _ => rfl)
  have h1 : loadExistingFiles entries
      = (entries.filter (fun e => !e.isDir)).map (fun e => (e.name, recordOfEntry e)) := by
    simpa [loadExistingFiles] using h0
  refine ⟨h1, ?_, ?_⟩
  · simp [listFiles, h1, List.map_map]
  · simp [listFiles, h1, List.map_map, recordOfEntry]

/-- Witness for C8: a directory with two regular files and one
subdirectory. -/
theorem claim_C8_witness :
    (([⟨"idA", false, false, 5, 3⟩, ⟨"sub", true, false, 6, 0⟩,
       ⟨"idB", false, false, 7, 4⟩] : List DirEntry).map (fun e => e.name)).Nodup ∧
    (∀ e ∈ ([⟨"idA", false, false, 5, 3⟩, ⟨"sub", true, false, 6, 0⟩,
       ⟨"idB", false, false, 7, 4⟩] : List DirEntry), e.infoErr = false) ∧
    loadExistingFiles [⟨"idA", false, false, 5, 3⟩, ⟨"sub", true, false, 6, 0⟩,
       ⟨"idB", false, false, 7, 4⟩]
      = [("idA", ⟨"idA", "idA", 5, 5, 3⟩), ("idB", ⟨"idB", "idB", 7, 7, 4⟩)] ∧
    (listFiles ⟨loadExistingFiles [⟨"idA", false, false, 5, 3⟩,
        ⟨"sub", true, false, 6, 0⟩, ⟨"idB", false, false, 7, 4⟩], [], 0⟩).map
          (fun r => r.id)
      = ["idA", "idB"] := by
  have h := claim_C8_restart_recovery
    [⟨"idA", false, false, 5, 3⟩, ⟨"sub", true, false, 6, 0⟩,
     ⟨"idB", false, false, 7, 4⟩] [] 0 (by decide) (by decide)
  refine ⟨by decide, by decide, ?_, ?_⟩
  · rw [h.1]; decide
  · rw [h.2.2]; decide

/-- C9: GetStats returns the pair (number of index records, sum of their
Size fields); a batch of N valid uploads with pairwise-distinct contents
into an empty store yields fileCount N and totalBytes the sum of the
payload sizes. -/
theorem claim_C9_stats_accuracy :
    (∀ s : Store,
      getStats s = (s.files.length, (s.files.map (fun q => q.2.size)).sum)) ∧
    (∀ ps : List (String × List Nat),
      (∀ p ∈ ps, validateFile p.1 p.2 = none) →
      (ps.map (fun p => md5Hex p.2)).Nodup →
      getStats (uploadAll emptyStore ps)
        = (ps.length, (ps.map (fun p => p.2.length)).sum)) := by
  have hgen : ∀ s : Store,
      getStats s = (s.files.length, (s.files.map (fun q => q.2.size)).sum) := by
    intro s
    simp [getStats, foldl_size_sum]
  refine ⟨hgen, ?_⟩
  intro ps hval hnd
  have h := uploadAll_stats_go ps emptyStore hval hnd (fun p hp => rfl)
  rw [hgen, h.1, h.2]
  simp [emptyStore]

/-- Witness for C9: one upload of one byte. -/
theorem claim_C9_witness :
    (∀ p ∈ ([("a.txt", [104])] : List (String × List Nat)),
      validateFile p.1 p.2 = none) ∧
    (([("a.txt", [104])] : List (String × List Nat)).map
      (fun p => md5Hex p.2)).Nodup ∧
    getStats (uploadAll emptyStore [("a.txt", [104])]) = (1, 1) := by
  refine ⟨by decide, by simp, ?_⟩
  have h := claim_C9_stats_accuracy.2 [("a.txt", [104])] (by decide) (by simp)
  simpa using h

/-- C10: the gRPC upload handler rejects an empty filename, then an empty
payload, with InvalidArgument and an untouched store before the controller
runs; hence the repository's FileEmpty branch is unreachable through the
public upload path, and when the repository does report InvalidFilename for
a handler-accepted request the filename was non-empty and whitespace-only. -/
theorem claim_C10_handler_guards (s : Store) (f : String) (data : List Nat) :
    handlerUploadFile s "" data
        = (.error ⟨.invalidArgument, "filename is required"⟩, s) ∧
    (f ≠ "" → data.length = 0 →
      handlerUploadFile s f data
        = (.error ⟨.invalidArgument, "data is required"⟩, s)) ∧
    (f ≠ "" → data.length ≠ 0 →
      (saveFile s f data).1 ≠ .error .errFileIsEmpty) ∧
    (f ≠ "" → data.length ≠ 0 →
      (saveFile s f data).1 = .error .errInvalidFilename → trimSpaceEmpty f = true) := by
  refine ⟨by simp [handlerUploadFile], ?_, ?_, ?_⟩
  · intro hf hd
    simp [handlerUploadFile, hf, hd]
  · intro hf hd hcontr
    have hv := saveFile_error_inv s f data _ hcontr
    rw [validateFile_empty_iff] at hv
    exact hd hv.2.2
  · intro hf hd herr
    have hv := saveFile_error_inv s f data _ herr
    exact (validateFile_invalidFilename_iff f data).mp hv

/-- Witness for C10: the three guard situations on concrete inputs. -/
theorem claim_C10_witness :
    handlerUploadFile emptyStore "" [1]
        = (.error ⟨.invalidArgument, "filename is required"⟩, emptyStore) ∧
    handlerUploadFile emptyStore "x" []
        = (.error ⟨.invalidArgument, "data is required"⟩, emptyStore) ∧
    (saveFile emptyStore "  " [1]).1 ≠ .error .errFileIsEmpty ∧
    trimSpaceEmpty "  " = true := by
  have h0 := claim_C10_handler_guards emptyStore "x" [1]
  have h1 := claim_C10_handler_guards emptyStore "x" ([] : List Nat)
  have h2 := claim_C10_handler_guards emptyStore "  " [1]
  exact ⟨h0.1, h1.2.1 (by decide) rfl, h2.2.2.1 (by decide) (by decide),
    h2.2.2.2 (by decide) (by decide) (by decide)⟩

end TagesFS
